import Mathlib

/-!
Verification of the interval-tracking engine of the asan-double-fetch runtime.

The embedding mirrors, in order:
- `src/span.rs` : `Span`, `SpanRelation`, `Span::relation`;
- `src/memory_tracking.rs` : `MemoryTracker` (a `BTreeSet<Span>` ordered by
  span start, modelled as a list kept sorted by start with distinct starts),
  `track_access`, `remove_access`, `check`, `lookup_range`;
- `src/lib.rs` : the global region registry (a `Vec` of region-span/tracker
  pairs), `__asan_unwatch_shared_memory_region`, `get_memory_tracker` and
  `__asan_double_fetch_check`.

Addresses are `usize` values; they are modelled as `Nat` together with the
explicit saturation bound `USIZE_MAX`, so `usize::saturating_add` becomes
`satAdd` and `usize::saturating_sub` becomes truncated `Nat` subtraction.
A Rust `panic!` is modelled by returning `Option.none`.
-/

namespace AsanDoubleFetch

/-- `usize::MAX` on the 64-bit target, i.e. `2 ^ 64 - 1`. -/
def USIZE_MAX : Nat := 18446744073709551615

/-- `usize::saturating_add`. -/
def satAdd (a b : Nat) : Nat := min (a + b) USIZE_MAX

/-- `Span(Range<Address>)` from `src/span.rs`.  `stop` is the field the Rust
code calls `end` (a keyword in Lean). -/
structure Span where
  start : Nat
  stop : Nat
deriving DecidableEq, Repr

/-- `SpanRelation` from `src/span.rs`. -/
inductive SpanRelation where
  | None
  | AdjacentStart
  | AdjacentEnd
  | OverlapStart
  | OverlapEnd
  | Engulf
  | Break
deriving DecidableEq, Repr

/-- `Span::with_len`: `Self(start..start.saturating_add(sz))`. -/
def Span.withLen (start sz : Nat) : Span :=
  ⟨start, satAdd start sz⟩

/-- `Span::len`: `self.end() - self.start()` (truncated subtraction). -/
def Span.len (s : Span) : Nat := s.stop - s.start

/-- `Span::relation` from `src/span.rs`, the exact if-else chain. -/
def Span.relation (self other : Span) : SpanRelation :=
  if other.start ≤ self.start ∧ other.stop ≥ self.stop then
    SpanRelation.Engulf
  else if other.stop = self.start then
    SpanRelation.AdjacentStart
  else if other.start = self.stop then
    SpanRelation.AdjacentEnd
  else if other.start < self.start ∧ other.stop > self.start then
    SpanRelation.OverlapStart
  else if other.stop > self.stop ∧ other.start < self.stop then
    SpanRelation.OverlapEnd
  else if other.start > self.start ∧ other.stop < self.stop then
    SpanRelation.Break
  else
    SpanRelation.None

/-- `MemoryTracker(BTreeSet<Span>)`: the set is ordered by `Span::cmp`,
which compares start addresses only; we model it as the sorted list of its
elements in ascending start order (starts pairwise distinct). -/
abbrev MemoryTracker := List Span

/-- `BTreeSet::insert` under the start-only ordering: inserting a span whose
start is already present leaves the set unchanged (the entry is not updated). -/
def insertSpan : MemoryTracker → Span → MemoryTracker
  | [], s => [s]
  | t :: ts, s =>
    if s.start < t.start then s :: t :: ts
    else if s.start = t.start then t :: ts
    else t :: insertSpan ts s

/-- `BTreeSet::remove` under the start-only ordering: removes the element
whose start equals the argument's start, if any. -/
def removeSpan : MemoryTracker → Span → MemoryTracker
  | [], _ => []
  | t :: ts, s => if s.start = t.start then ts else t :: removeSpan ts s

/-- `MemoryTracker::lookup_range`: range over
`(Included(Span::new(0,0)), Excluded(Span::new(a.saturating_add(sz), 0)))`
(comparison by start only), reversed, then
`take_while(|span| a < span.end())`. -/
def lookupRange (t : MemoryTracker) (a sz : Nat) : List Span :=
  ((t.filter fun s => s.start < satAdd a sz).reverse).takeWhile fun s =>
    a < s.stop

/-- `MemoryTracker::check`: `Ok(())` is `Option.none`, `Err(fault)` is
`some fault` where `fault` is the start of the first span produced by
`lookup_range`. -/
def check (t : MemoryTracker) (a sz : Nat) : Option Nat :=
  (lookupRange t a sz).head?.map Span.start

/-- The merge loop of `MemoryTracker::track_access`: walk the collected
overlap list, removing each span from the set and folding its endpoints into
the optional `start`/`end` accumulators according to `new.relation(&span)`.
The `SpanRelation::None` arm is the `panic!`, modelled by `Option.none`. -/
def trackFold (new : Span) :
    MemoryTracker → List Span → Option Nat → Option Nat →
      Option (MemoryTracker × Option Nat × Option Nat)
  | set, [], st, en => some (set, st, en)
  | set, sp :: rest, st, en =>
    let set2 := removeSpan set sp
    match new.relation sp with
    | SpanRelation.Break => trackFold new set2 rest st en
    | SpanRelation.Engulf => trackFold new set2 rest (some sp.start) (some sp.stop)
    | SpanRelation.AdjacentStart => trackFold new set2 rest (some sp.start) en
    | SpanRelation.OverlapStart => trackFold new set2 rest (some sp.start) en
    | SpanRelation.AdjacentEnd => trackFold new set2 rest st (some sp.stop)
    | SpanRelation.OverlapEnd => trackFold new set2 rest st (some sp.stop)
    | SpanRelation.None => Option.none

/-- `MemoryTracker::track_access(a, sz)`: probe
`lookup_range(a.saturating_sub(1), sz.saturating_add(1))`, fold the matches,
then insert the single merged span.  `Option.none` models the `panic!`. -/
def trackAccess (t : MemoryTracker) (a sz : Nat) : Option MemoryTracker :=
  let new := Span.withLen a sz
  let overlapped := lookupRange t (a - 1) (satAdd sz 1)
  match trackFold new t overlapped Option.none Option.none with
  | Option.none => Option.none
  | some (set, st, en) =>
    some (insertSpan set (Span.mk (st.getD new.start) (en.getD new.stop)))

/-- The split loop of `MemoryTracker::remove_access`: walk the collected
overlap list, removing each span and re-inserting the kept halves according
to `clear.relation(&span)`.  The catch-all arm is the `panic!`. -/
def removeFold (clear : Span) :
    MemoryTracker → List Span → Option MemoryTracker
  | set, [] => some set
  | set, sp :: rest =>
    let set2 := removeSpan set sp
    match clear.relation sp with
    | SpanRelation.Break => removeFold clear set2 rest
    | SpanRelation.OverlapEnd =>
      removeFold clear (insertSpan set2 (Span.mk clear.stop sp.stop)) rest
    | SpanRelation.OverlapStart =>
      removeFold clear (insertSpan set2 (Span.mk sp.start clear.start)) rest
    | SpanRelation.Engulf =>
      let fstHalf := Span.mk sp.start clear.start
      let sndHalf := Span.mk clear.stop sp.stop
      let set3 := if 0 < fstHalf.len then insertSpan set2 fstHalf else set2
      let set4 := if 0 < sndHalf.len then insertSpan set3 sndHalf else set3
      removeFold clear set4 rest
    | _ => Option.none

/-- `MemoryTracker::remove_access(a, sz)`: probe `lookup_range(a, sz)` and
run the split loop over the matches. -/
def removeAccess (t : MemoryTracker) (a sz : Nat) : Option MemoryTracker :=
  let clear := Span.withLen a sz
  removeFold clear t (lookupRange t a sz)

/-- One entry of `TRACKED_MEMORY_REGIONS`: the watched region span and the
region's tracker. -/
abbrev Registry := List (Span × MemoryTracker)

/-- First index whose region span has a non-`None` relation to the probe
span; this is both `Iterator::position` in
`__asan_unwatch_shared_memory_region` and `Iterator::find_map` in
`get_memory_tracker`. -/
def findRegion (probe : Span) : Registry → Option Nat
  | [] => Option.none
  | e :: rest =>
    if probe.relation e.1 ≠ SpanRelation.None then some 0
    else (findRegion probe rest).map (fun i => i + 1)

/-- `Vec::remove(idx)`. -/
def removeIdx : Registry → Nat → Registry
  | [], _ => []
  | _ :: rest, 0 => rest
  | e :: rest, i + 1 => e :: removeIdx rest i

/-- `__asan_unwatch_shared_memory_region(addr)`: probe with the 1-byte span
`Span::with_len(addr, 1)` and remove the first matching entry, if any. -/
def unwatchRegion (regs : Registry) (addr : Nat) : Registry :=
  match findRegion (Span.withLen addr 1) regs with
  | Option.none => regs
  | some i => removeIdx regs i

/-- Observable outcome of one `__asan_double_fetch_check` call: the returned
boolean, whether the double-fetch branch was taken (the log/corruption side
effect), and the registry state afterwards. -/
structure CheckOut where
  ret : Bool
  doubleFetch : Bool
  regs : Registry
deriving DecidableEq, Repr

/-- `__asan_double_fetch_check(addr, len, is_write)`: resolve the owning
region via `get_memory_tracker`; on a read whose `check` fails, return
without touching the tracker (double-fetch branch); otherwise run
`track_access` (whose `panic!` is `Option.none`) and store the updated
tracker back. -/
def checkAccess (regs : Registry) (addr len : Nat) (isWrite : Bool) :
    Option CheckOut :=
  match findRegion (Span.withLen addr len) regs with
  | Option.none => some ⟨false, false, regs⟩
  | some i =>
    match regs[i]? with
    | Option.none => some ⟨false, false, regs⟩
    | some (rspan, tr) =>
      if isWrite = false ∧ (check tr addr len).isSome = true then
        some ⟨false, true, regs⟩
      else
        match trackAccess tr addr len with
        | Option.none => Option.none
        | some tr2 => some ⟨false, false, regs.set i (rspan, tr2)⟩

/-- Well-formed tracker state as the spec's tracker invariant describes it:
stored spans are non-empty, pairwise disjoint and non-adjacent (hence the
list is strictly ascending by start). -/
def wfSpans (t : MemoryTracker) : Prop :=
  t.Pairwise (fun s u => s.stop < u.start) ∧ ∀ s ∈ t, s.start < s.stop

/-- A stored span overlaps the (saturated) query range `[a, a+sz)`. -/
def overlapsQ (s : Span) (a sz : Nat) : Prop :=
  s.start < satAdd a sz ∧ a < s.stop

/-- Spec-side description of `unwatch_region` used for claim C7's amended
statement: remove the first entry whose region touches or overlaps the
1-byte probe at `addr`, i.e. `region.start ≤ addr + 1 ∧ addr ≤ region.end`. -/
def unwatchSpec (addr : Nat) : Registry → Registry
  | [] => []
  | e :: rest =>
    if e.1.start ≤ addr + 1 ∧ addr ≤ e.1.stop then rest
    else e :: unwatchSpec addr rest

/-- Spec-side rendering of claim C1's seven-case decision list, in the
claim's wording and precedence (first match wins). -/
def relationSpec (self other : Span) : SpanRelation :=
  if other.start ≤ self.start ∧ self.stop ≤ other.stop then
    SpanRelation.Engulf
  else if other.stop = self.start then
    SpanRelation.AdjacentStart
  else if other.start = self.stop then
    SpanRelation.AdjacentEnd
  else if other.start < self.start ∧ self.start < other.stop then
    SpanRelation.OverlapStart
  else if self.stop < other.stop ∧ other.start < self.stop then
    SpanRelation.OverlapEnd
  else if self.start < other.start ∧ other.stop < self.stop then
    SpanRelation.Break
  else
    SpanRelation.None

/-- C1: for every pair of spans `self` and `other` (each with start ≤ end),
`relation(self, other)` returns the classification given by the spec's seven
cases evaluated in precedence order with first match winning. -/
theorem relation_matches_spec (s o : Span) (hs : s.start ≤ s.stop)
    (ho : o.start ≤ o.stop) : s.relation o = relationSpec s o := rfl

/-- Witness for `relation_matches_spec` at the concrete spans
`[0, 1)` and `[1, 2)`. -/
theorem relation_matches_spec_witness :
    (Span.mk 0 1).start ≤ (Span.mk 0 1).stop ∧
    (Span.mk 1 2).start ≤ (Span.mk 1 2).stop ∧
    (Span.mk 0 1).relation (Span.mk 1 2) =
      relationSpec (Span.mk 0 1) (Span.mk 1 2) :=
  ⟨by decide, by decide,
    relation_matches_spec (Span.mk 0 1) (Span.mk 1 2) (by decide) (by decide)⟩

/-- C2: the tracker `{[0x0, 0x8)}` satisfies the claimed invariant and the
clear range `[0x0, 0x10)` fully covers the stored span, yet
`remove_access(0, 16)` reaches the fatal impossible-relation branch
(`clear.relation(&span)` is `None` for this overlapping pair), modelled as
`Option.none`. -/
theorem removeAccess_cover_aborts :
    removeAccess [Span.mk 0 8] 0 16 = Option.none ∧
    ((0 : Nat) ≤ (Span.mk 0 8).start ∧ (Span.mk 0 8).stop ≤ satAdd 0 16) ∧
    wfSpans [Span.mk 0 8] := by
  refine ⟨by decide, by decide, ?_⟩
  unfold wfSpans
  decide

/-- C3: inserting `[0x2000, 0x2004)` then `[0x2004, 0x2008)` merges into one
span, but the reverse order leaves two unmerged spans — the probe window
only widens to the left, so a right-adjacent stored span is never probed.
The two spans have a non-`None` relation, as the claim requires. -/
theorem trackAccess_order_dependent :
    (trackAccess [] 8192 4).bind (fun t => trackAccess t 8196 4) =
      some [Span.mk 8192 8200] ∧
    (trackAccess [] 8196 4).bind (fun t => trackAccess t 8192 4) =
      some [Span.mk 8192 8196, Span.mk 8196 8200] ∧
    (Span.mk 8192 8196).relation (Span.mk 8196 8200) ≠ SpanRelation.None := by
  decide

/-- C4: a write access of `[0x0, 0x10)` inside the watched region
`[0x0, 0x100)` whose tracker already holds `[0x0, 0x8)` makes
`track_access` hit the fatal merge branch (the relation of the two
overlapping spans computes to `None`), so `check_access` aborts instead of
returning `false`. -/
theorem checkAccess_write_aborts :
    checkAccess [(Span.mk 0 256, [Span.mk 0 8])] 0 16 true = Option.none := by
  decide

/-- C6: a call on which `check_access` aborts rather than returning
`false`: a write of `[0x9000, 0x9010)` in watched region `[0x9000, 0x9100)`
whose tracker already holds `[0x9000, 0x9008)`. -/
theorem checkAccess_abort_exists :
    checkAccess [(Span.mk 36864 37120, [Span.mk 36864 36872])] 36864 16 true =
      Option.none := by
  decide

/-- C9: when a read access is classified as a double-fetch (the overlap
branch is taken), `check_access` returns `false` and leaves the registry —
in particular the owning region's tracked span set — unchanged, and the
identical read repeated later produces the identical double-fetch outcome. -/
theorem checkAccess_doubleFetch_frame (regs : Registry) (addr len : Nat)
    (out : CheckOut) (h : checkAccess regs addr len false = some out)
    (hd : out.doubleFetch = true) :
    out.regs = regs ∧ out.ret = false ∧
      checkAccess out.regs addr len false = some out := by
  unfold checkAccess at h
  cases hf : findRegion (Span.withLen addr len) regs with
  | none =>
    rw [hf] at h
    injection h with h
    subst h
    simp at hd
  | some i =>
    rw [hf] at h
    dsimp only at h
    cases hg : regs[i]? with
    | none =>
      rw [hg] at h
      injection h with h
      subst h
      simp at hd
    | some e =>
      obtain ⟨rspan, tr⟩ := e
      rw [hg] at h
      dsimp only at h
      by_cases hc : (false : Bool) = false ∧ (check tr addr len).isSome = true
      · rw [if_pos hc] at h
        injection h with h
        subst h
        refine ⟨rfl, rfl, ?_⟩
        show checkAccess regs addr len false = some ⟨false, true, regs⟩
        unfold checkAccess
        rw [hf]
        dsimp only
        rw [hg]
        dsimp only
        rw [if_pos hc]
      · rw [if_neg hc] at h
        cases ht : trackAccess tr addr len with
        | none =>
          rw [ht] at h
          cases h
        | some tr2 =>
          rw [ht] at h
          injection h with h
          subst h
          simp at hd

/-- Witness for `checkAccess_doubleFetch_frame`: a second read of
`[0x10, 0x14)` in watched region `[0x0, 0x100)` whose tracker already holds
`[0x10, 0x14)`. -/
theorem checkAccess_doubleFetch_frame_witness :
    (CheckOut.mk false true [(Span.mk 0 256, [Span.mk 16 20])]).regs =
      [(Span.mk 0 256, [Span.mk 16 20])] ∧
    (CheckOut.mk false true [(Span.mk 0 256, [Span.mk 16 20])]).ret = false ∧
    checkAccess [(Span.mk 0 256, [Span.mk 16 20])] 16 4 false =
      some (CheckOut.mk false true [(Span.mk 0 256, [Span.mk 16 20])]) := by
  have h : checkAccess [(Span.mk 0 256, [Span.mk 16 20])] 16 4 false =
      some (CheckOut.mk false true [(Span.mk 0 256, [Span.mk 16 20])]) := by
    decide
  exact checkAccess_doubleFetch_frame _ 16 4 _ h rfl

/-- Helper: the head of `takeWhile` is the head of the list filtered through
the predicate. -/
theorem head?_takeWhile_eq (p : Span → Bool) (xs : List Span) :
    (xs.takeWhile p).head? =
      xs.head?.bind fun x => if p x then some x else Option.none := by
  cases xs with
  | nil => rfl
  | cons x xs =>
    rw [List.takeWhile_cons]
    split <;> simp_all

/-- Helper: `getLast?` produces a member of the list. -/
theorem mem_of_getLast?_eq :
    ∀ (l : List Span) (x : Span), l.getLast? = some x → x ∈ l := by
  intro l
  induction l with
  | nil => intro x hx; cases hx
  | cons y ys ih =>
    intro x hx
    cases ys with
    | nil =>
      simp [List.getLast?] at hx
      simp [hx]
    | cons z zs =>
      rw [List.getLast?_cons_cons] at hx
      exact List.mem_cons_of_mem y (ih x hx)

/-- Helper: in a pairwise-related list, the last element is related to
every earlier one. -/
theorem getLast?_pairwise_rel (R : Span → Span → Prop) :
    ∀ (l : List Span), l.Pairwise R → ∀ x, l.getLast? = some x →
      ∀ u ∈ l, u = x ∨ R u x := by
  intro l
  induction l with
  | nil => intro _ x hx; cases hx
  | cons y ys ih =>
    intro hp x hx u hu
    cases ys with
    | nil =>
      simp [List.getLast?] at hx
      rcases List.mem_singleton.mp hu with rfl
      exact Or.inl hx
    | cons z zs =>
      rw [List.getLast?_cons_cons] at hx
      rcases List.mem_cons.mp hu with rfl | hu2
      · exact Or.inr ((List.pairwise_cons.mp hp).1 x (mem_of_getLast?_eq _ _ hx))
      · exact ih (List.pairwise_cons.mp hp).2 x hx u hu2

/-- C5: on a tracker whose stored spans are non-empty, pairwise disjoint
and non-adjacent, and for a non-empty query `[addr, addr+len)`, `check`
succeeds exactly when the query overlaps no stored span, and on overlap it
returns the start address of the highest-start stored span overlapping the
query. -/
theorem check_correct (t : MemoryTracker) (a sz : Nat)
    (hwf : wfSpans t) (hne : a < satAdd a sz) :
    (check t a sz = Option.none ↔ ∀ s ∈ t, ¬ overlapsQ s a sz) ∧
    (∀ f, check t a sz = some f →
      ∃ s ∈ t, overlapsQ s a sz ∧ s.start = f ∧
        ∀ u ∈ t, overlapsQ u a sz → u.start ≤ s.start) := by
  have hch : check t a sz =
      (((t.filter fun s => decide (s.start < satAdd a sz)).getLast?.bind
        fun x => if a < x.stop then some x else Option.none).map Span.start) := by
    unfold check lookupRange
    rw [head?_takeWhile_eq, List.head?_reverse]
    simp
  cases hl : (t.filter fun s => decide (s.start < satAdd a sz)).getLast? with
  | none =>
    have hemp : t.filter (fun s => decide (s.start < satAdd a sz)) = [] := by
      rwa [List.getLast?_eq_none_iff] at hl
    have hno : ∀ s ∈ t, ¬ overlapsQ s a sz := by
      intro s hs hov
      have hmem : s ∈ t.filter (fun s => decide (s.start < satAdd a sz)) :=
        List.mem_filter.mpr ⟨hs, by simpa using hov.1⟩
      rw [hemp] at hmem
      cases hmem
    have hnone : check t a sz = Option.none := by rw [hch, hl]; rfl
    refine ⟨iff_of_true hnone hno, ?_⟩
    intro f hf
    rw [hnone] at hf
    cases hf
  | some x =>
    have hx_memf : x ∈ t.filter (fun s => decide (s.start < satAdd a sz)) :=
      mem_of_getLast?_eq _ _ hl
    have hx_mem : x ∈ t := (List.mem_filter.mp hx_memf).1
    have hx_q : x.start < satAdd a sz := by
      have := (List.mem_filter.mp hx_memf).2
      simpa using this
    have hpairf :
        (t.filter fun s => decide (s.start < satAdd a sz)).Pairwise
          (fun s u => s.stop < u.start) := hwf.1.filter _
    have hmax := getLast?_pairwise_rel _ _ hpairf x hl
    by_cases hp : a < x.stop
    · have hcheck : check t a sz = some x.start := by
        rw [hch, hl]
        simp [hp]
      constructor
      · rw [hcheck]
        exact iff_of_false (by simp) (fun hall => hall x hx_mem ⟨hx_q, hp⟩)
      · intro f hf
        rw [hcheck] at hf
        injection hf with hf
        refine ⟨x, hx_mem, ⟨hx_q, hp⟩, hf, ?_⟩
        intro u hu huov
        have hu_f : u ∈ t.filter (fun s => decide (s.start < satAdd a sz)) :=
          List.mem_filter.mpr ⟨hu, by simpa using huov.1⟩
        rcases hmax u hu_f with rfl | hlt
        · exact Nat.le_refl _
        · have := hwf.2 u hu
          omega
    · have hcheck : check t a sz = Option.none := by
        rw [hch, hl]
        simp [hp]
      have hxwf := hwf.2 x hx_mem
      have hno : ∀ s ∈ t, ¬ overlapsQ s a sz := by
        intro s hs hov
        have hs_f : s ∈ t.filter (fun s => decide (s.start < satAdd a sz)) :=
          List.mem_filter.mpr ⟨hs, by simpa using hov.1⟩
        rcases hmax s hs_f with rfl | hlt
        · exact hp hov.2
        · have := hov.2
          omega
      refine ⟨iff_of_true hcheck hno, ?_⟩
      intro f hf
      rw [hcheck] at hf
      cases hf

/-- Witness for `check_correct` on the tracker `{[10, 20), [30, 40)}` and
the query `[15, 35)`. -/
theorem check_correct_witness :
    wfSpans [Span.mk 10 20, Span.mk 30 40] ∧ (15 : Nat) < satAdd 15 20 ∧
    ((check [Span.mk 10 20, Span.mk 30 40] 15 20 = Option.none ↔
        ∀ s ∈ ([Span.mk 10 20, Span.mk 30 40] : MemoryTracker),
          ¬ overlapsQ s 15 20) ∧
      (∀ f, check [Span.mk 10 20, Span.mk 30 40] 15 20 = some f →
        ∃ s ∈ ([Span.mk 10 20, Span.mk 30 40] : MemoryTracker),
          overlapsQ s 15 20 ∧ s.start = f ∧
            ∀ u ∈ ([Span.mk 10 20, Span.mk 30 40] : MemoryTracker),
              overlapsQ u 15 20 → u.start ≤ s.start)) := by
  have hwf : wfSpans [Span.mk 10 20, Span.mk 30 40] := by
    unfold wfSpans
    refine ⟨?_, ?_⟩ <;> decide
  have hne : (15 : Nat) < satAdd 15 20 := by decide
  exact ⟨hwf, hne, check_correct _ _ _ hwf hne⟩

/-- Helper: for a non-empty region span, the 1-byte probe used by
`unwatch_region` has a non-`None` relation exactly when the probe touches
or overlaps the region. -/
theorem probe_relation_iff (addr : Nat) (r : Span) (hmax : addr < USIZE_MAX)
    (hr : r.start < r.stop) :
    ((Span.withLen addr 1).relation r ≠ SpanRelation.None) ↔
      (r.start ≤ addr + 1 ∧ addr ≤ r.stop) := by
  have h1 : satAdd addr 1 = addr + 1 := by
    unfold satAdd USIZE_MAX at *
    omega
  unfold Span.withLen Span.relation
  rw [h1]
  dsimp only
  split_ifs <;> simp_all <;> omega

/-- C7 counterexample: unwatching at address `0x2000`, which is not inside
the region `[0x1000, 0x2000)` (it is its exclusive end), still removes the
registry entry, because the 1-byte probe is adjacent to the region. -/
theorem unwatch_outside_removes :
    unwatchRegion [(Span.mk 4096 8192, ([] : MemoryTracker))] 8192 = [] ∧
    ¬ ((Span.mk 4096 8192).start ≤ 8192 ∧ 8192 < (Span.mk 4096 8192).stop) := by
  decide

/-- C7 amended: for every registry of non-empty regions and every address
below `usize::MAX`, `unwatch_region(addr)` removes exactly the first entry
whose region touches or overlaps the 1-byte probe `[addr, addr+1)` — i.e.
`region.start ≤ addr + 1` and `addr ≤ region.end` — and leaves the registry
unchanged when no entry matches. -/
theorem unwatch_probe_characterization (regs : Registry) (addr : Nat)
    (hmax : addr < USIZE_MAX) (hwf : ∀ e ∈ regs, e.1.start < e.1.stop) :
    unwatchRegion regs addr = unwatchSpec addr regs := by
  induction regs with
  | nil => rfl
  | cons e rest ih =>
    have he := probe_relation_iff addr e.1 hmax (hwf e (by simp))
    have hrest : ∀ x ∈ rest, x.1.start < x.1.stop := fun x hx =>
      hwf x (List.mem_cons_of_mem e hx)
    by_cases hc : e.1.start ≤ addr + 1 ∧ addr ≤ e.1.stop
    · have hne : (Span.withLen addr 1).relation e.1 ≠ SpanRelation.None :=
        he.mpr hc
      unfold unwatchRegion findRegion
      rw [if_pos hne]
      dsimp only
      unfold unwatchSpec
      rw [if_pos hc]
      rfl
    · have hnot : ¬ ((Span.withLen addr 1).relation e.1 ≠ SpanRelation.None) :=
        fun h => hc (he.mp h)
      have ihr := ih hrest
      unfold unwatchRegion findRegion
      rw [if_neg hnot]
      unfold unwatchSpec
      rw [if_neg hc]
      cases hf : findRegion (Span.withLen addr 1) rest with
      | none =>
        have h2 : unwatchRegion rest addr = rest := by
          unfold unwatchRegion
          rw [hf]
        rw [h2] at ihr
        simp only [Option.map_none']
        rw [← ihr]
      | some i =>
        have h2 : unwatchRegion rest addr = removeIdx rest i := by
          unfold unwatchRegion
          rw [hf]
        rw [h2] at ihr
        simp only [Option.map_some']
        unfold removeIdx
        rw [← ihr]

/-- Witness for `unwatch_probe_characterization`: the registry with the
single watched region `[0x1000, 0x2000)` probed at `0x1800`. -/
theorem unwatch_probe_characterization_witness :
    (6144 : Nat) < USIZE_MAX ∧
    (∀ e ∈ ([(Span.mk 4096 8192, [])] : Registry), e.1.start < e.1.stop) ∧
    unwatchRegion [(Span.mk 4096 8192, [])] 6144 =
      unwatchSpec 6144 [(Span.mk 4096 8192, [])] := by
  have h1 : (6144 : Nat) < USIZE_MAX := by decide
  have h2 : ∀ e ∈ ([(Span.mk 4096 8192, [])] : Registry),
      e.1.start < e.1.stop := by decide
  exact ⟨h1, h2, unwatch_probe_characterization _ _ h1 h2⟩

/-- C8 counterexample: with `len = 0`, `track_access(0, 0)` inserts the
empty span `[0, 0)` and `remove_access(0, 0)` does not remove it (its probe
finds nothing), so the round trip does not restore emptiness. -/
theorem track_remove_zero_not_empty :
    (trackAccess [] 0 0).bind (fun t => removeAccess t 0 0) =
      some [Span.mk 0 0] ∧
    ([Span.mk 0 0] : MemoryTracker).isEmpty = false := by
  decide

/-- C8 amended: for every `addr` and `len` for which the span
`[addr, addr+len)` is non-empty under saturating arithmetic (`0 < len` and
`addr < usize::MAX`), `track_access(addr, len)` followed by
`remove_access(addr, len)` on an empty tracker leaves it empty again. -/
theorem track_remove_roundtrip (a sz : Nat) (hsz : 0 < sz)
    (hlt : a < USIZE_MAX) :
    (trackAccess [] a sz).bind (fun t => removeAccess t a sz) = some [] := by
  have hE : a < satAdd a sz := by
    unfold satAdd USIZE_MAX at *
    omega
  have h1 : trackAccess [] a sz = some [Span.mk a (satAdd a sz)] := rfl
  rw [h1]
  show removeAccess [Span.mk a (satAdd a sz)] a sz = some []
  have h2 : lookupRange [Span.mk a (satAdd a sz)] a sz =
      [Span.mk a (satAdd a sz)] := by
    unfold lookupRange
    simp [hE]
  unfold removeAccess
  rw [h2]
  have hrel : (Span.withLen a sz).relation (Span.mk a (satAdd a sz)) =
      SpanRelation.Engulf := by
    unfold Span.withLen Span.relation
    simp
  unfold removeFold
  rw [hrel]
  simp [removeSpan, Span.len, removeFold, Span.withLen]

/-- Witness for `track_remove_roundtrip` at `addr = 4`, `len = 3`. -/
theorem track_remove_roundtrip_witness :
    (0 : Nat) < 3 ∧ (4 : Nat) < USIZE_MAX ∧
    (trackAccess [] 4 3).bind (fun t => removeAccess t 4 3) = some [] :=
  ⟨by decide, by decide, track_remove_roundtrip 4 3 (by decide) (by decide)⟩

/-- C10 counterexample: after `track_access(5, 0)` stores the empty span
`[5, 5)`, the check of `[4, 6)` does report an overlap with that span, its
start address `5`. -/
theorem zero_len_span_check_overlap :
    trackAccess [] 5 0 = some [Span.mk 5 5] ∧
    check [Span.mk 5 5] 4 2 = some 5 := by
  decide

/-- C10 amended: on an empty tracker, `track_access(addr, 0)` inserts the
empty span `[addr, addr)` — span count 1, no longer empty; a subsequent
`check(a, sz)` reports an overlap with that span exactly when `addr` lies
strictly inside the saturated query `[a, a+sz)`; and `remove_access(addr, 0)`
does not remove it. -/
theorem track_zero_len_behavior (addr : Nat) (hmax : addr ≤ USIZE_MAX) :
    trackAccess [] addr 0 = some [Span.mk addr addr] ∧
    ([Span.mk addr addr] : MemoryTracker).length = 1 ∧
    ([Span.mk addr addr] : MemoryTracker).isEmpty = false ∧
    (∀ a sz : Nat, check [Span.mk addr addr] a sz =
      if a < addr ∧ addr < satAdd a sz then some addr else Option.none) ∧
    removeAccess [Span.mk addr addr] addr 0 = some [Span.mk addr addr] := by
  have h0 : satAdd addr 0 = addr := by
    unfold satAdd USIZE_MAX at *
    omega
  refine ⟨?_, rfl, rfl, ?_, ?_⟩
  · have h1 : trackAccess [] addr 0 = some [Span.mk addr (satAdd addr 0)] := rfl
    rw [h1, h0]
  · intro a sz
    unfold check lookupRange
    by_cases h1 : addr < satAdd a sz
    · by_cases h2 : a < addr
      · simp [h1, h2]
      · simp [h1, h2]
    · simp [h1]
  · have h2 : ¬ (addr < satAdd addr 0) := by
      rw [h0]
      omega
    unfold removeAccess lookupRange
    simp [h2, removeFold]

/-- Witness for `track_zero_len_behavior` at `addr = 7`. -/
theorem track_zero_len_behavior_witness :
    (7 : Nat) ≤ USIZE_MAX ∧
    (trackAccess [] 7 0 = some [Span.mk 7 7] ∧
      ([Span.mk 7 7] : MemoryTracker).length = 1 ∧
      ([Span.mk 7 7] : MemoryTracker).isEmpty = false ∧
      (∀ a sz : Nat, check [Span.mk 7 7] a sz =
        if a < 7 ∧ 7 < satAdd a sz then some 7 else Option.none) ∧
      removeAccess [Span.mk 7 7] 7 0 = some [Span.mk 7 7]) :=
  ⟨by decide, track_zero_len_behavior 7 (by decide)⟩

end AsanDoubleFetch
